import Mathlib

set_option linter.unusedVariables false

/-!
Shallow embedding of joyent/bugview `jirapub.js`: the field-allowlist
projector (`format_issue_assemble`, `copy_obj`), the related-issue
visibility check (`allow_issue` and the per-key resolution performed in
`format_issue`), the JIRA-markup fallback parser (`parse_jira_markup`,
`prefmtok`) and the link renderer (`fix_url`, `format_remote_link`).
-/

/--
Model of a JavaScript/JSON value as it occurs in a raw JIRA record.
`null` stands for both JS `null` and `undefined` (an absent property).
-/
inductive JValue where
  | null : JValue
  | bool : Bool → JValue
  | num : Int → JValue
  | str : String → JValue
  | obj : List (String × JValue) → JValue

/-- JavaScript truthiness of a modelled value (`if (v)`). -/
def truthy : JValue → Bool
  | .null => false
  | .bool b => b
  | .num n => n != 0
  | .str s => s != ""
  | .obj _ => true

/--
JS property lookup `o[k]` on an association list (JS objects carry no
duplicate keys, so inputs of interest are duplicate-free); a missing
property is `undefined`, modelled as `.null`.
-/
def lookupKV : List (String × JValue) → String → JValue
  | [], _ => .null
  | (k', v) :: t, k => if k' = k then v else lookupKV t k

/-- JS property access `v[k]`: only objects have the properties we read. -/
def JValue.getProp : JValue → String → JValue
  | .obj kvs, k => lookupKV kvs k
  | _, _ => .null

/-- The allowlist of sub-keys preserved for object-valued issue fields. -/
def ISSUE_OBJECT_KEYS : List String :=
  ["id", "name", "description", "key", "emailAddress", "displayName"]

/-- The allowlist of sub-keys preserved for fix-version entries. -/
def RELEASE_OBJECT_KEYS : List String :=
  ["id", "name", "archived", "released", "releaseDate"]

/-- A related issue as stored in the `other_issues` map: the code only
reads its `fields.labels`. -/
structure OtherIssue where
  labels : List String

/-- The `m = key.match(/^([A-Z]+)-([0-9]+)/)` test in `allow_issue`:
the key must start with one or more ASCII capitals, a dash, and a digit. -/
def issuekey_ok (key : String) : Bool :=
  let up := key.data.takeWhile (fun c => 'A' ≤ c && c ≤ 'Z')
  let rest := key.data.drop up.length
  !up.isEmpty &&
    (match rest with
     | '-' :: d :: _ => d.isDigit
     | _ => false)

/--
`allow_issue(key, other_issues)`: a related issue may be shown iff its
key looks like an issue key, it was fetched into `other_issues`, and
(unless unrestricted mode is on) it carries the configured public label.
-/
def allow_issue (unrestricted : Bool) (config_label : String)
    (key : String) (other_issues : String → Option OtherIssue) : Bool :=
  if !issuekey_ok key then false
  else
    match other_issues key with
    | none => false
    | some o =>
        if !unrestricted && !(o.labels.contains config_label) then false
        else true

/--
The per-key decision taken by `lookup_linked_issue_one` inside
`format_issue`: a fetch failure leaves the entry unset, and a fetched
issue is stored in `other_issues` only when unrestricted mode is active
or it carries the public label.
-/
def resolve (fetch : String → Option OtherIssue) (unrestricted : Bool)
    (config_label : String) : String → Option OtherIssue :=
  fun key =>
    match fetch key with
    | none => none
    | some o =>
        if unrestricted || o.labels.contains config_label then some o
        else none

/-- The spec's notion of a Visible endpoint: fetch succeeded and, unless
unrestricted mode is active, the fetched label set contains the public
label. -/
def endpoint_visible (fetch : String → Option OtherIssue)
    (unrestricted : Bool) (config_label : String) (key : String) : Bool :=
  match fetch key with
  | none => false
  | some o => unrestricted || o.labels.contains config_label

/-- One endpoint of a raw issue link; the code reads only `id`, `key` and
`fields.summary` of it. -/
structure LinkEndpoint where
  id : JValue
  key : String
  summary : JValue

/-- The `type` object of an issue link. -/
structure LinkType where
  id : JValue
  name : JValue
  inward : JValue
  outward : JValue

/-- A raw issue link: optional inward and outward endpoints. -/
structure RawIssueLink where
  id : JValue
  type : LinkType
  inwardIssue : Option LinkEndpoint
  outwardIssue : Option LinkEndpoint

/-- A sanitised issue link as assembled by `format_issue_assemble`. -/
structure SanIssueLink where
  id : JValue
  type : LinkType
  inwardIssue : Option LinkEndpoint
  outwardIssue : Option LinkEndpoint

/-- A comment author; `copy_author` reads exactly these four keys. -/
structure CommentAuthor where
  name : JValue
  key : JValue
  emailAddress : JValue
  displayName : JValue

/-- A raw comment as documented for RawIssue:
`{id, timestamps, author, updateAuthor, body, visibility?}`. -/
structure RawComment where
  id : JValue
  created : JValue
  updated : JValue
  body : JValue
  author : Option CommentAuthor
  updateAuthor : Option CommentAuthor
  visibility : JValue

/-- The raw comment container with backend-reported counters. -/
structure RawCommentContainer where
  maxResults : Int
  total : Int
  startAt : Int
  comments : List RawComment

/-- A sanitised comment (no `visibility` survives into the output). -/
structure SanComment where
  id : JValue
  created : JValue
  updated : JValue
  body : JValue
  author : Option CommentAuthor
  updateAuthor : Option CommentAuthor

/-- The rebuilt comment container with recomputed counters. -/
structure SanCommentContainer where
  maxResults : Int
  total : Int
  startAt : Int
  comments : List SanComment

/-- A remote link; `format_issue_assemble` copies `id`, `object.url` and
`object.title`. -/
structure RemoteLink where
  id : JValue
  url : JValue
  title : JValue

/-- The raw `issue.fields` of the primary issue: exactly the properties
`format_issue_assemble` reads. -/
structure RawFields where
  summary : JValue
  issuetype : JValue
  priority : JValue
  status : JValue
  creator : JValue
  reporter : JValue
  assignee : JValue
  resolution : JValue
  created : JValue
  updated : JValue
  resolutiondate : JValue
  description : JValue
  fixVersions : Option (List (List (String × JValue)))
  issuelinks : Option (List RawIssueLink)
  labels : List String
  comment : Option RawCommentContainer

/-- A raw JIRA issue. -/
structure RawIssue where
  id : JValue
  key : String
  fields : RawFields

/-- The sanitised field set produced by `format_issue_assemble`. -/
structure SanFields where
  summary : JValue
  issuetype : Option (List (String × JValue))
  priority : Option (List (String × JValue))
  status : Option (List (String × JValue))
  creator : Option (List (String × JValue))
  reporter : Option (List (String × JValue))
  assignee : Option (List (String × JValue))
  resolution : Option (List (String × JValue))
  created : Option JValue
  updated : Option JValue
  resolutiondate : Option JValue
  description : Option JValue
  fixVersions : Option (List (List (String × JValue)))
  issuelinks : Option (List SanIssueLink)
  labels : List String
  comment : Option SanCommentContainer

/-- The sanitised issue record. -/
structure SanIssue where
  id : JValue
  key : String
  fields : SanFields

/--
`copy_obj(fname)` applied to the raw field value: if the field is falsy
it is skipped entirely; otherwise only the truthy sub-values at keys in
`ISSUE_OBJECT_KEYS` are copied.
-/
def copy_obj (v : JValue) : Option (List (String × JValue)) :=
  if truthy v then
    some (ISSUE_OBJECT_KEYS.filterMap fun k =>
      let x := v.getProp k
      if truthy x then some (k, x) else none)
  else none

/-- The `copy_simple(fname)` helper: the field is copied verbatim when
truthy. -/
def copy_simple (v : JValue) : Option JValue :=
  if truthy v then some v else none

/-- The fix-version projection (the `RELEASE_OBJECT_KEYS.forEach` body). -/
def copy_release (fv : List (String × JValue)) : List (String × JValue) :=
  RELEASE_OBJECT_KEYS.filterMap fun k =>
    let x := lookupKV fv k
    if truthy x then some (k, x) else none

/-- Projection of a surviving link endpoint:
`{id, key, fields: {summary}}`. -/
def project_endpoint (e : LinkEndpoint) : LinkEndpoint :=
  { id := e.id, key := e.key, summary := e.summary }

/-- The `il.outwardIssue && allow_issue(...)` guard: the endpoint exists
and passes `allow_issue`. -/
def link_endpoint_ok (unrestricted : Bool) (config_label : String)
    (other_issues : String → Option OtherIssue) :
    Option LinkEndpoint → Bool
  | some e => allow_issue unrestricted config_label e.key other_issues
  | none => false

/--
The per-link body of the `issuelinks` loop in `format_issue_assemble`:
the link is pushed only if at least one endpoint passes `allow_issue`,
and only the allowed endpoints are kept, projected to id/key/summary.
-/
def sanitize_link (unrestricted : Bool) (config_label : String)
    (other_issues : String → Option OtherIssue) (il : RawIssueLink) :
    Option SanIssueLink :=
  if link_endpoint_ok unrestricted config_label other_issues
        il.outwardIssue ||
      link_endpoint_ok unrestricted config_label other_issues
        il.inwardIssue then
    some
      { id := il.id
        type :=
          { id := il.type.id, name := il.type.name,
            inward := il.type.inward, outward := il.type.outward }
        outwardIssue :=
          if link_endpoint_ok unrestricted config_label other_issues
              il.outwardIssue then
            il.outwardIssue.map project_endpoint
          else none
        inwardIssue :=
          if link_endpoint_ok unrestricted config_label other_issues
              il.inwardIssue then
            il.inwardIssue.map project_endpoint
          else none }
  else none

/-- The `copy_author` helper keeps the comment author's four documented
keys. -/
def sanitize_comment (com : RawComment) : SanComment :=
  { id := com.id
    created := com.created
    updated := com.updated
    body := com.body
    author := com.author
    updateAuthor := com.updateAuthor }

/--
The comment loop of `format_issue_assemble`: any comment with a truthy
`visibility` is skipped; a kept comment is appended and both counters
are incremented.
-/
def sanitize_comments : List RawComment → SanCommentContainer →
    SanCommentContainer
  | [], acc => acc
  | com :: t, acc =>
      if truthy com.visibility then sanitize_comments t acc
      else
        sanitize_comments t
          { acc with
            comments := acc.comments ++ [sanitize_comment com]
            maxResults := acc.maxResults + 1
            total := acc.total + 1 }

/-- The comment container is rebuilt from scratch with zeroed counters. -/
def sanitize_comment_container (c : RawCommentContainer) :
    SanCommentContainer :=
  sanitize_comments c.comments
    { maxResults := 0, total := 0, startAt := 0, comments := [] }

/--
`format_issue_assemble(issue, remotelinks, other_issues)`: the full
allowlist projection producing the sanitised record and the copied
remote links. `unrestricted`, `config_label` and `allowed_labels` model
the module-level `UNRESTRICTED`, `CONFIG.label` and `ALLOWED_LABELS`.
-/
def format_issue_assemble (unrestricted : Bool) (config_label : String)
    (allowed_labels : List String) (issue : RawIssue)
    (remotelinks : List RemoteLink)
    (other_issues : String → Option OtherIssue) :
    SanIssue × List RemoteLink :=
  ({ id := issue.id
     key := issue.key
     fields :=
       { summary := issue.fields.summary
         issuetype := copy_obj issue.fields.issuetype
         priority := copy_obj issue.fields.priority
         status := copy_obj issue.fields.status
         created := copy_simple issue.fields.created
         updated := copy_simple issue.fields.updated
         creator := copy_obj issue.fields.creator
         reporter := copy_obj issue.fields.reporter
         assignee := copy_obj issue.fields.assignee
         resolution := copy_obj issue.fields.resolution
         resolutiondate := copy_simple issue.fields.resolutiondate
         fixVersions :=
           issue.fields.fixVersions.map (fun fvs => fvs.map copy_release)
         issuelinks :=
           issue.fields.issuelinks.map
             (fun ils =>
               ils.filterMap
                 (sanitize_link unrestricted config_label other_issues))
         labels := issue.fields.labels.filter allowed_labels.contains
         description := copy_simple issue.fields.description
         comment := issue.fields.comment.map sanitize_comment_container } },
   remotelinks.map fun rl =>
     { id := rl.id, url := rl.url, title := rl.title })

/-! ### Helper lemmas about the projector -/

theorem copy_obj_keys (v : JValue) :
    ∀ kv ∈ (copy_obj v).getD [], kv.1 ∈ ISSUE_OBJECT_KEYS := by
  intro kv hkv
  unfold copy_obj at hkv
  split at hkv
  · simp only [Option.getD_some, List.mem_filterMap] at hkv
    obtain ⟨k, hk, hx⟩ := hkv
    split at hx
    · cases hx
      exact hk
    · cases hx
  · simp at hkv

theorem copy_obj_null : copy_obj JValue.null = none := rfl

theorem copy_obj_falsy (v : JValue) (k : String)
    (h : truthy (v.getProp k) = false) :
    ∀ w, (k, w) ∉ (copy_obj v).getD [] := by
  intro w hw
  unfold copy_obj at hw
  split at hw
  · simp only [Option.getD_some, List.mem_filterMap] at hw
    obtain ⟨k', hk', hx⟩ := hw
    split at hx
    · rename_i ht
      cases hx
      rw [h] at ht
      cases ht
    · cases hx
  · simp at hw

theorem copy_release_falsy (fv : List (String × JValue)) (k : String)
    (h : truthy (lookupKV fv k) = false) :
    ∀ w, (k, w) ∉ copy_release fv := by
  intro w hw
  unfold copy_release at hw
  simp only [List.mem_filterMap] at hw
  obtain ⟨k', hk', hx⟩ := hw
  split at hx
  · rename_i ht
    cases hx
    rw [h] at ht
    cases ht
  · cases hx

theorem sanitize_comments_comments (l : List RawComment)
    (acc : SanCommentContainer) :
    (sanitize_comments l acc).comments =
      acc.comments ++
        (l.filter (fun com => !truthy com.visibility)).map sanitize_comment := by
  induction l generalizing acc with
  | nil => simp [sanitize_comments]
  | cons com t ih =>
      unfold sanitize_comments
      split
      · rename_i h
        rw [ih]
        simp [List.filter_cons, h]
      · rename_i h
        rw [ih]
        simp only [Bool.not_eq_true] at h
        simp [List.filter_cons, h]

theorem sanitize_comments_counts (l : List RawComment)
    (acc : SanCommentContainer)
    (h1 : acc.maxResults = acc.comments.length)
    (h2 : acc.total = acc.comments.length) :
    (sanitize_comments l acc).maxResults =
        (sanitize_comments l acc).comments.length ∧
      (sanitize_comments l acc).total =
        (sanitize_comments l acc).comments.length ∧
      (sanitize_comments l acc).startAt = acc.startAt := by
  induction l generalizing acc with
  | nil => exact ⟨h1, h2, rfl⟩
  | cons com t ih =>
      unfold sanitize_comments
      split
      · exact ih acc h1 h2
      · apply ih
        · simp [h1]
        · simp [h2]

/-! ### Fixtures for witnesses and counterexamples -/

/-- An empty related-issue map. -/
def oi0 : String → Option OtherIssue := fun _ => none

/-- A raw issue whose object fields carry both allowlisted and
non-allowlisted keys, with an absent (`null`) assignee. -/
def issue0 : RawIssue :=
  { id := .str "100"
    key := "OS-1"
    fields :=
      { summary := .str "s"
        issuetype := .obj [("id", .str "1"), ("self", .str "secret"),
                           ("name", .str "Bug")]
        priority := .obj [("name", .str "P1")]
        status := .null
        creator := .obj [("displayName", .str "D"), ("avatarUrls", .obj [])]
        reporter := .null
        assignee := .null
        resolution := .null
        created := .str "2020"
        updated := .null
        resolutiondate := .null
        description := .str "d"
        fixVersions := some [[("archived", .bool false),
                              ("released", .bool false),
                              ("name", .str "v1"), ("id", .str "3")]]
        issuelinks := none
        labels := ["public", "private-stuff"]
        comment :=
          some
            { maxResults := 50
              total := 7
              startAt := 0
              comments :=
                [{ id := .str "c1", created := .str "t1", updated := .str "t1",
                   body := .str "open comment",
                   author := some ⟨.str "n", .str "k", .str "e", .str "dn"⟩,
                   updateAuthor := none, visibility := .null },
                 { id := .str "c2", created := .str "t2", updated := .str "t2",
                   body := .str "restricted comment",
                   author := some ⟨.str "n2", .str "k2", .str "e2", .str "d2"⟩,
                   updateAuthor := none,
                   visibility := .obj [("type", .str "role"),
                                       ("value", .str "Developers")] }] } } }

/-- A fetch function whose only known issue has a lowercase key and the
public label. -/
def fetch2 : String → Option OtherIssue :=
  fun k => if k = "x-1" then some ⟨["public"]⟩ else none

/-- An issue link whose only endpoint points at the lowercase key. -/
def link2 : RawIssueLink :=
  { id := .str "L1"
    type := ⟨.str "10", .str "Relates", .str "relates to", .str "relates to"⟩
    inwardIssue := none
    outwardIssue := some ⟨.str "9", "x-1", .str "linked summary"⟩ }

/-- An issue carrying exactly the link above. -/
def issue2 : RawIssue :=
  { issue0 with fields := { issue0.fields with issuelinks := some [link2] } }


/-! ### C1 -/

/--
C1: for every raw issue, every object-valued field (issuetype, priority,
status, creator, reporter, assignee, resolution) in the sanitized record
produced by `format_issue_assemble` contains only keys from
`ISSUE_OBJECT_KEYS`, and a field absent from the raw issue is absent
from the output, never defaulted.
-/
theorem c1_object_allowlist (u : Bool) (cl : String) (al : List String)
    (issue : RawIssue) (rls : List RemoteLink)
    (oi : String → Option OtherIssue) :
    let out := (format_issue_assemble u cl al issue rls oi).1
    ((∀ kv ∈ out.fields.issuetype.getD [], kv.1 ∈ ISSUE_OBJECT_KEYS) ∧
      (issue.fields.issuetype = JValue.null →
        out.fields.issuetype = none)) ∧
    ((∀ kv ∈ out.fields.priority.getD [], kv.1 ∈ ISSUE_OBJECT_KEYS) ∧
      (issue.fields.priority = JValue.null → out.fields.priority = none)) ∧
    ((∀ kv ∈ out.fields.status.getD [], kv.1 ∈ ISSUE_OBJECT_KEYS) ∧
      (issue.fields.status = JValue.null → out.fields.status = none)) ∧
    ((∀ kv ∈ out.fields.creator.getD [], kv.1 ∈ ISSUE_OBJECT_KEYS) ∧
      (issue.fields.creator = JValue.null → out.fields.creator = none)) ∧
    ((∀ kv ∈ out.fields.reporter.getD [], kv.1 ∈ ISSUE_OBJECT_KEYS) ∧
      (issue.fields.reporter = JValue.null → out.fields.reporter = none)) ∧
    ((∀ kv ∈ out.fields.assignee.getD [], kv.1 ∈ ISSUE_OBJECT_KEYS) ∧
      (issue.fields.assignee = JValue.null → out.fields.assignee = none)) ∧
    ((∀ kv ∈ out.fields.resolution.getD [], kv.1 ∈ ISSUE_OBJECT_KEYS) ∧
      (issue.fields.resolution = JValue.null →
        out.fields.resolution = none)) := by
  intro out
  refine ⟨⟨copy_obj_keys _, ?_⟩, ⟨copy_obj_keys _, ?_⟩,
    ⟨copy_obj_keys _, ?_⟩, ⟨copy_obj_keys _, ?_⟩, ⟨copy_obj_keys _, ?_⟩,
    ⟨copy_obj_keys _, ?_⟩, ⟨copy_obj_keys _, ?_⟩⟩ <;>
    · intro h
      show copy_obj _ = none
      rw [h]
      rfl

/-- Witness for C1 at a concrete issue: the sanitized `issuetype` keeps
only allowlisted keys (the raw one also carried `self`), and the `null`
assignee stays absent. -/
theorem c1_object_allowlist_witness :
    (∀ kv ∈ ((format_issue_assemble false "public" ["public"] issue0 []
        oi0).1).fields.issuetype.getD [], kv.1 ∈ ISSUE_OBJECT_KEYS) ∧
      ((format_issue_assemble false "public" ["public"] issue0 []
        oi0).1).fields.assignee = none := by
  have h := c1_object_allowlist false "public" ["public"] issue0 [] oi0
  exact ⟨h.1.1, (h.2.2.2.2.2.1).2 rfl⟩

/-! ### C3 -/

/--
C3: every comment with a truthy visibility restriction is dropped
entirely from the sanitized comment list, and every comment without one
is retained in order with all of its documented fields
(id, created, updated, body, author, updateAuthor) intact — no partial
redaction.
-/
theorem c3_comments_all_or_nothing (u : Bool) (cl : String)
    (al : List String) (issue : RawIssue) (rls : List RemoteLink)
    (oi : String → Option OtherIssue) (c : RawCommentContainer)
    (hc : issue.fields.comment = some c) :
    ∃ sc, (format_issue_assemble u cl al issue rls oi).1.fields.comment =
        some sc ∧
      sc.comments =
        (c.comments.filter (fun com => !truthy com.visibility)).map
          sanitize_comment ∧
      ∀ com, sanitize_comment com =
        { id := com.id, created := com.created, updated := com.updated,
          body := com.body, author := com.author,
          updateAuthor := com.updateAuthor } := by
  refine ⟨sanitize_comment_container c, ?_, ?_, fun com => rfl⟩
  · show (issue.fields.comment.map sanitize_comment_container) = _
    rw [hc]
    rfl
  · unfold sanitize_comment_container
    rw [sanitize_comments_comments]
    rfl

/-- Witness for C3: on `issue0` the restricted comment vanishes and the
unrestricted one survives with every field intact. -/
theorem c3_comments_all_or_nothing_witness :
    ∃ sc, (format_issue_assemble false "public" ["public"] issue0 []
        oi0).1.fields.comment = some sc ∧
      sc.comments =
        ((issue0.fields.comment.get rfl).comments.filter
          (fun com => !truthy com.visibility)).map sanitize_comment ∧
      ∀ com, sanitize_comment com =
        { id := com.id, created := com.created, updated := com.updated,
          body := com.body, author := com.author,
          updateAuthor := com.updateAuthor } :=
  c3_comments_all_or_nothing false "public" ["public"] issue0 [] oi0
    (issue0.fields.comment.get rfl) rfl

/-! ### C9 -/

/--
C9: whenever the raw issue has a comment container, the sanitized
container satisfies `maxResults = total = comments.length` and
`startAt = 0`, regardless of the counts reported by the backend.
-/
theorem c9_comment_counters (u : Bool) (cl : String) (al : List String)
    (issue : RawIssue) (rls : List RemoteLink)
    (oi : String → Option OtherIssue) (c : RawCommentContainer)
    (hc : issue.fields.comment = some c) :
    ∃ sc, (format_issue_assemble u cl al issue rls oi).1.fields.comment =
        some sc ∧
      sc.maxResults = sc.comments.length ∧
      sc.total = sc.comments.length ∧
      sc.startAt = 0 := by
  refine ⟨sanitize_comment_container c, ?_, ?_⟩
  · show (issue.fields.comment.map sanitize_comment_container) = _
    rw [hc]
    rfl
  · have h := sanitize_comments_counts c.comments
      { maxResults := 0, total := 0, startAt := 0, comments := [] }
      (by simp) (by simp)
    exact ⟨h.1, h.2.1, h.2.2⟩

/-- Witness for C9: `issue0` reports `maxResults = 50, total = 7` but the
sanitized container carries the recomputed count 1. -/
theorem c9_comment_counters_witness :
    (∃ sc, (format_issue_assemble false "public" ["public"] issue0 []
        oi0).1.fields.comment = some sc ∧
      sc.maxResults = sc.comments.length ∧
      sc.total = sc.comments.length ∧
      sc.startAt = 0) ∧
    (∃ sc, (format_issue_assemble false "public" ["public"] issue0 []
        oi0).1.fields.comment = some sc ∧ sc.comments.length = 1) :=
  ⟨c9_comment_counters false "public" ["public"] issue0 [] oi0
      (issue0.fields.comment.get rfl) rfl,
    ⟨sanitize_comment_container (issue0.fields.comment.get rfl), rfl, rfl⟩⟩

/-! ### C10 -/

/--
C10: an allowlisted sub-key whose value is falsy (false, 0, empty
string, or null) is omitted from the sanitized projection even though
present in the raw record; in particular a fix version with
`archived: false` or `released: false` loses those keys.
-/
theorem c10_falsy_subkeys_omitted (u : Bool) (cl : String)
    (al : List String) (issue : RawIssue) (rls : List RemoteLink)
    (oi : String → Option OtherIssue)
    (fvs : List (List (String × JValue)))
    (h : issue.fields.fixVersions = some fvs) :
    (format_issue_assemble u cl al issue rls oi).1.fields.fixVersions =
        some (fvs.map copy_release) ∧
      (∀ fv k, truthy (lookupKV fv k) = false →
        ∀ w, (k, w) ∉ copy_release fv) ∧
      (∀ v k, truthy (v.getProp k) = false →
        ∀ w, (k, w) ∉ (copy_obj v).getD []) := by
  refine ⟨?_, copy_release_falsy, copy_obj_falsy⟩
  show (issue.fields.fixVersions.map fun l => l.map copy_release) = _
  rw [h]
  rfl

/-- Witness for C10: the fix version of `issue0` carries
`archived: false` and `released: false`, and both keys disappear while
the truthy `id` and `name` survive. -/
theorem c10_falsy_subkeys_omitted_witness :
    (format_issue_assemble false "public" ["public"] issue0 []
        oi0).1.fields.fixVersions =
      some [[("id", JValue.str "3"), ("name", JValue.str "v1")]] ∧
    (∀ w, ("archived", w) ∉ copy_release [("archived", .bool false),
        ("released", .bool false), ("name", .str "v1"),
        ("id", .str "3")]) := by
  have h := c10_falsy_subkeys_omitted false "public" ["public"] issue0 []
    oi0 _ rfl
  refine ⟨h.1.trans ?_, fun w =>
    h.2.1 [("archived", .bool false), ("released", .bool false),
      ("name", .str "v1"), ("id", .str "3")] "archived" rfl w⟩
  rfl


/-! ### C2 -/

/--
Against the map built by the resolver, `allow_issue` is exactly the
spec's Visible test plus the extra issue-key pattern check.
-/
theorem allow_issue_resolve (fetch : String → Option OtherIssue)
    (u : Bool) (cl k : String) :
    allow_issue u cl k (resolve fetch u cl) =
      (issuekey_ok k && endpoint_visible fetch u cl k) := by
  unfold allow_issue resolve endpoint_visible
  cases hk : issuekey_ok k
  · simp
  · simp only [Bool.not_true, Bool.false_eq_true, if_false, Bool.true_and]
    cases hf : fetch k
    · simp
    · rename_i o
      by_cases hc : cl ∈ o.labels <;> cases u <;> simp [hc]

/--
C2 (amended): with the related-issue map produced by the resolver, a raw
issue link survives into the sanitized `issuelinks` iff at least one of
its endpoints is Visible (fetched successfully and, unless unrestricted
mode is active, carrying the public label) AND that endpoint's key
matches the `^[A-Z]+-[0-9]+` issue-key pattern checked by `allow_issue`;
a suppressed link leaves no placeholder, and every surviving endpoint is
projected to exactly `{id, key, fields: {summary}}`.
-/
theorem c2_links_iff (u : Bool) (cl : String) (al : List String)
    (fetch : String → Option OtherIssue) (issue : RawIssue)
    (rls : List RemoteLink) (ils : List RawIssueLink)
    (h : issue.fields.issuelinks = some ils) :
    ((format_issue_assemble u cl al issue rls
        (resolve fetch u cl)).1.fields.issuelinks =
      some (ils.filterMap (sanitize_link u cl (resolve fetch u cl)))) ∧
    (∀ il, ((sanitize_link u cl (resolve fetch u cl) il).isSome = true ↔
      ((∃ e, il.outwardIssue = some e ∧ issuekey_ok e.key = true ∧
          endpoint_visible fetch u cl e.key = true) ∨
       (∃ e, il.inwardIssue = some e ∧ issuekey_ok e.key = true ∧
          endpoint_visible fetch u cl e.key = true)))) ∧
    (∀ il sl, sanitize_link u cl (resolve fetch u cl) il = some sl →
      sl.id = il.id ∧ sl.type = il.type ∧
      sl.outwardIssue = (match il.outwardIssue with
        | some e =>
            if allow_issue u cl e.key (resolve fetch u cl) then
              some (project_endpoint e)
            else none
        | none => none) ∧
      sl.inwardIssue = (match il.inwardIssue with
        | some e =>
            if allow_issue u cl e.key (resolve fetch u cl) then
              some (project_endpoint e)
            else none
        | none => none)) := by
  refine ⟨?_, ?_, ?_⟩
  · show (issue.fields.issuelinks.map _) = _
    rw [h]
    rfl
  · intro il
    unfold sanitize_link
    cases ho : il.outwardIssue <;> cases hi : il.inwardIssue <;>
      simp [ho, hi, link_endpoint_ok, allow_issue_resolve,
        Bool.or_eq_true, Bool.and_eq_true]
  · intro il sl hs
    unfold sanitize_link at hs
    by_cases hcond :
        (link_endpoint_ok u cl (resolve fetch u cl) il.outwardIssue ||
          link_endpoint_ok u cl (resolve fetch u cl) il.inwardIssue) = true
    · rw [if_pos hcond] at hs
      injection hs with hs
      subst hs
      refine ⟨rfl, rfl, ?_, ?_⟩
      · cases ho : il.outwardIssue <;> simp [ho, link_endpoint_ok]
      · cases hi : il.inwardIssue <;> simp [hi, link_endpoint_ok]
    · rw [if_neg hcond] at hs
      cases hs

/--
Counterexample to C2 as stated: `fetch2` successfully fetches the linked
issue `x-1` and it carries the public label, so its endpoint is Visible,
yet the sanitized record contains no link at all (the lowercase key
fails `allow_issue`'s `^[A-Z]+-[0-9]+` check).
-/
theorem c2_links_iff_counterexample :
    endpoint_visible fetch2 false "public" "x-1" = true ∧
      issue2.fields.issuelinks = some [link2] ∧
      (format_issue_assemble false "public" ["public"] issue2 []
        (resolve fetch2 false "public")).1.fields.issuelinks = some [] :=
  ⟨rfl, rfl, rfl⟩

/-- Witness for the amended C2 at the concrete `issue2`. -/
theorem c2_links_iff_witness :
    ((format_issue_assemble false "public" ["public"] issue2 []
        (resolve fetch2 false "public")).1.fields.issuelinks =
      some ([link2].filterMap
        (sanitize_link false "public" (resolve fetch2 false "public")))) ∧
    ¬ (sanitize_link false "public" (resolve fetch2 false "public")
        link2).isSome = true := by
  have h := c2_links_iff false "public" ["public"] fetch2 issue2 []
    [link2] rfl
  refine ⟨h.1, ?_⟩
  rw [h.2.1 link2]
  rintro (⟨e, he, hk, hv⟩ | ⟨e, he, hk, hv⟩)
  · rw [show link2.outwardIssue =
      some ⟨.str "9", "x-1", .str "linked summary"⟩ from rfl] at he
    cases he
    exact absurd hk (by decide)
  · rw [show link2.inwardIssue = none from rfl] at he
    cases he


/-! ### Entity encoder and link renderer -/

/-- Decimal digit characters. -/
def DIGITS : List Char := ['0', '1', '2', '3', '4', '5', '6', '7', '8', '9']

/-- Fuel-driven decimal rendering of a natural number (used for numeric
character entities); the fuel bounds the number of digits. -/
def natStrAux : Nat → Nat → List Char
  | 0, _ => []
  | fuel + 1, n =>
      if n < 10 then [DIGITS.getD n '0']
      else natStrAux fuel (n / 10) ++ [DIGITS.getD (n % 10) '0']

/-- Decimal rendering of a natural number. -/
def natStr (n : Nat) : List Char := natStrAux (n + 1) n

/-- Model of the `ent` module's `encode` for one character: the special
HTML characters and non-ASCII characters become numeric entities, all
other ASCII characters pass through. -/
def encodeChar (c : Char) : List Char :=
  if c = '&' then ['&', '#', '3', '8', ';']
  else if c = '<' then ['&', '#', '6', '0', ';']
  else if c = '>' then ['&', '#', '6', '2', ';']
  else if c = '"' then ['&', '#', '3', '4', ';']
  else if c = '\'' then ['&', '#', '3', '9', ';']
  else if 127 < c.toNat then '&' :: '#' :: (natStr c.toNat ++ [';'])
  else [c]

/-- Model of `mod_ent.encode`. -/
def ent_encode (s : String) : String :=
  String.mk (s.data.foldr (fun c acc => encodeChar c ++ acc) [])

/-- A parsed URL, restricted to the fields `fix_url` reads or writes
(a simplified model of the legacy Node `url` module's parse result). -/
structure Url where
  protocol : String
  hostname : String
  pathname : String
  search : String
  hash : String

/-- Model of legacy `url.format` over the tracked fields. -/
def url_format (u : Url) : String :=
  u.protocol ++ "//" ++ u.hostname ++ u.pathname ++ u.search ++ u.hash

/-- One rewrite rule of the `SUBS` table. -/
structure UrlSub where
  h : String
  m : String
  p : String

/-- The static `SUBS` table of `fix_url`. -/
def SUBS : String → Option (List UrlSub) :=
  fun host =>
    if host = "mo.joyent.com" then
      some [⟨"github.com", "/illumos-joyent", "/joyent/illumos-joyent"⟩,
            ⟨"github.com", "/smartos-live", "/joyent/smartos-live"⟩,
            ⟨"github.com", "/illumos-live", "/joyent/smartos-live"⟩,
            ⟨"github.com", "/illumos-extra", "/joyent/illumos-extra"⟩,
            ⟨"github.com", "/sdc-napi", "/joyent/sdc-napi"⟩]
    else none

/-- Model of JS `String.prototype.trim`: strip whitespace at both ends. -/
def jsTrim (s : String) : String :=
  String.mk
    (((s.data.dropWhile Char.isWhitespace).reverse.dropWhile
      Char.isWhitespace).reverse)

/-- The prefix-matching loop of `fix_url` over a host's rewrite rules:
the first rule whose prefix matches rewrites host and path, otherwise
the trimmed input is encoded unchanged. -/
def fix_url_subs (out : String) (url : Url) (subs : List UrlSub) :
    String :=
  match subs.find? (fun s => s.m.isPrefixOf url.pathname) with
  | some s =>
      ent_encode (url_format
        { url with
          hostname := s.h
          pathname := s.p ++ url.pathname.drop s.m.length })
  | none => ent_encode out

/--
`fix_url(input)`: trim, try to parse (the external parser is passed in
as `parse`; a thrown exception is modelled by `none`, upon which the
code logs and returns the trimmed input as-is), rewrite a known host by
the first matching path prefix, and entity-encode the result.
-/
def fix_url (parse : String → Option Url) (input : String) : String :=
  let out := jsTrim input
  match parse out with
  | none => out
  | some url =>
      match SUBS url.hostname with
      | none => ent_encode out
      | some subs => fix_url_subs out url subs

/-- The `format_remote_link(link, text)` renderer: the hardened anchor. -/
def format_remote_link (parse : String → Option Url)
    (link text : String) : String :=
  "<a rel=\"noopener noreferrer\" target=\"_blank\" href=\"" ++
    fix_url parse link ++ "\">" ++ text ++ "</a>"

/-- A string free of the raw characters that would break out of a
double-quoted href attribute or open a tag: a necessary property of any
entity-encoded string. -/
def href_encoded (s : String) : Bool :=
  s.data.all (fun c => !(c = '<' || c = '>' || c = '"'))

theorem natStrAux_digits (fuel n : Nat) :
    ∀ c ∈ natStrAux fuel n, c ∈ DIGITS := by
  induction fuel generalizing n with
  | zero => intro c hc; cases hc
  | succ fuel ih =>
      intro c hc
      unfold natStrAux at hc
      split at hc
      · simp only [List.mem_singleton] at hc
        subst hc
        have : n < 10 := by assumption
        interval_cases n <;> simp [DIGITS]
      · simp only [List.mem_append, List.mem_singleton] at hc
        rcases hc with hc | hc
        · exact ih _ c hc
        · subst hc
          have : n % 10 < 10 := Nat.mod_lt _ (by omega)
          set m := n % 10 with hm
          interval_cases m <;> simp [DIGITS]

theorem encodeChar_no_attr_break (c : Char) :
    ∀ x ∈ encodeChar c, ¬(x = '<' ∨ x = '>' ∨ x = '"') := by
  intro x hx
  unfold encodeChar at hx
  split at hx
  · fin_cases hx <;> decide
  split at hx
  · fin_cases hx <;> decide
  split at hx
  · fin_cases hx <;> decide
  split at hx
  · fin_cases hx <;> decide
  split at hx
  · fin_cases hx <;> decide
  split at hx
  · -- numeric entity branch
    simp only [List.mem_cons, List.mem_append, List.mem_singleton] at hx
    rcases hx with h | h | h | h | h
    · subst h; decide
    · subst h; decide
    · have hd := natStrAux_digits _ _ x h
      fin_cases hd <;> decide
    · subst h; decide
    · cases h
  · -- passthrough branch: x = c and c is none of the escaped characters
    simp only [List.mem_singleton] at hx
    subst hx
    rintro (h | h | h) <;> subst h <;> simp_all

theorem mem_encode_fold (x : Char) (l : List Char)
    (hx : x ∈ l.foldr (fun c acc => encodeChar c ++ acc) []) :
    ¬(x = '<' ∨ x = '>' ∨ x = '"') := by
  induction l with
  | nil => cases hx
  | cons c t ih =>
      simp only [List.foldr_cons, List.mem_append] at hx
      rcases hx with hx | hx
      · exact encodeChar_no_attr_break c x hx
      · exact ih hx

theorem ent_encode_href_encoded (s : String) :
    href_encoded (ent_encode s) = true := by
  unfold href_encoded ent_encode
  show List.all _ _ = true
  rw [List.all_eq_true]
  intro x hx
  have hr := mem_encode_fold x s.data hx
  push_neg at hr
  simp [hr.1, hr.2.1, hr.2.2]


/-! ### C6 -/

/-- A URL parser that always fails (models `mod_url.parse` throwing). -/
def parse0 : String → Option Url := fun _ => none

/-- A URL parser that always succeeds with a fixed non-special host. -/
def parse1 : String → Option Url :=
  fun _ => some ⟨"http:", "example.com", "/p", "", ""⟩

/--
C6 (amended): for every input URL string that fails to parse, `fix_url`
logs and returns the trimmed input unchanged — not entity-escaped — and
`format_remote_link` still wraps the display text in an anchor whose
href is that raw trimmed URL; no exception propagates (the function is
total) and rendering continues.
-/
theorem c6_url_parse_failure (parse : String → Option Url)
    (input text : String) (h : parse (jsTrim input) = none) :
    fix_url parse input = jsTrim input ∧
    format_remote_link parse input text =
      "<a rel=\"noopener noreferrer\" target=\"_blank\" href=\"" ++
        jsTrim input ++ "\">" ++ text ++ "</a>" := by
  have h1 : fix_url parse input = jsTrim input := by
    unfold fix_url
    simp only [h]
  exact ⟨h1, by unfold format_remote_link; rw [h1]⟩

/--
Counterexample to C6 as stated: when the URL fails to parse the renderer
does not return the escaped display text unlinked — it still emits an
anchor, whose href is the raw (unescaped) input.
-/
theorem c6_url_parse_failure_counterexample :
    format_remote_link parse0 "http://a b" "DISPLAY" ≠
        ent_encode "DISPLAY" ∧
      format_remote_link parse0 "http://a b" "DISPLAY" =
        "<a rel=\"noopener noreferrer\" target=\"_blank\" " ++
          "href=\"http://a b\">DISPLAY</a>" :=
  ⟨by decide, by decide⟩

/-- Witness for the amended C6 at a concrete failing parse. -/
theorem c6_url_parse_failure_witness :
    fix_url parse0 " u " = jsTrim " u " ∧
    format_remote_link parse0 " u " "D" =
      "<a rel=\"noopener noreferrer\" target=\"_blank\" href=\"" ++
        jsTrim " u " ++ "\">" ++ "D" ++ "</a>" :=
  c6_url_parse_failure parse0 " u " "D" rfl

/-! ### C7 -/

/-- On a successful parse, every branch of `fix_url` entity-encodes its
result. -/
theorem fix_url_parse_some (parse : String → Option Url) (link : String)
    (u : Url) (hu : parse (jsTrim link) = some u) :
    ∃ w, fix_url parse link = ent_encode w := by
  unfold fix_url
  simp only [hu]
  cases hsub : SUBS u.hostname
  · exact ⟨jsTrim link, rfl⟩
  · rename_i subs
    show ∃ w, fix_url_subs (jsTrim link) u subs = ent_encode w
    unfold fix_url_subs
    cases hf : subs.find? (fun s => s.m.isPrefixOf u.pathname)
    · exact ⟨jsTrim link, rfl⟩
    · rename_i s
      exact ⟨_, rfl⟩

/--
C7 (amended): every anchor emitted by `format_remote_link` carries both
`target="_blank"` and `rel="noopener noreferrer"`; the href it embeds is
entity-encoded whenever the URL parses, but on parse failure the raw
trimmed URL is embedded unencoded.
-/
theorem c7_anchor_attrs (parse : String → Option Url)
    (link text : String) :
    (∃ pre post, (format_remote_link parse link text).data =
        pre ++ ("target=\"_blank\"").data ++ post) ∧
    (∃ pre post, (format_remote_link parse link text).data =
        pre ++ ("rel=\"noopener noreferrer\"").data ++ post) ∧
    (∀ u, parse (jsTrim link) = some u →
      ∃ w, format_remote_link parse link text =
        "<a rel=\"noopener noreferrer\" target=\"_blank\" href=\"" ++
          ent_encode w ++ "\">" ++ text ++ "</a>") := by
  have hdata : (format_remote_link parse link text).data =
      ("<a rel=\"noopener noreferrer\" target=\"_blank\" href=\"").data ++
        ((fix_url parse link).data ++ (("\">").data ++
          (text.data ++ ("</a>").data))) := by
    unfold format_remote_link
    simp [String.data_append, List.append_assoc]
  refine ⟨?_, ?_, ?_⟩
  · refine ⟨("<a rel=\"noopener noreferrer\" ").data,
      (" href=\"").data ++ ((fix_url parse link).data ++ (("\">").data ++
        (text.data ++ ("</a>").data))), ?_⟩
    rw [hdata]
    have hc : ("<a rel=\"noopener noreferrer\" target=\"_blank\" href=\"").data =
        ("<a rel=\"noopener noreferrer\" ").data ++
          ("target=\"_blank\"").data ++ (" href=\"").data := by decide
    rw [hc]
    simp [List.append_assoc]
  · refine ⟨("<a ").data,
      (" target=\"_blank\" href=\"").data ++ ((fix_url parse link).data ++
        (("\">").data ++ (text.data ++ ("</a>").data))), ?_⟩
    rw [hdata]
    have hc : ("<a rel=\"noopener noreferrer\" target=\"_blank\" href=\"").data =
        ("<a ").data ++ ("rel=\"noopener noreferrer\"").data ++
          (" target=\"_blank\" href=\"").data := by decide
    rw [hc]
    simp [List.append_assoc]
  · intro u hu
    obtain ⟨w, hw⟩ := fix_url_parse_some parse link u hu
    refine ⟨w, ?_⟩
    unfold format_remote_link
    rw [hw]

/--
Counterexample to C7 as stated: on parse failure the embedded href is
the raw URL, which contains a raw double quote — something no
entity-encoded string can contain (`ent_encode_href_encoded`), so the
href is not entity-encoded; the encoder would have produced `x&#34;y`.
-/
theorem c7_anchor_attrs_counterexample :
    format_remote_link parse0 "x\"y" "t" =
        "<a rel=\"noopener noreferrer\" target=\"_blank\" " ++
          "href=\"x\"y\">t</a>" ∧
      href_encoded "x\"y" = false ∧
      ent_encode "x\"y" = "x&#34;y" :=
  ⟨by decide, by decide, by decide⟩

/-- Witness for the amended C7 at a successful parse. -/
theorem c7_anchor_attrs_witness :
    (∃ pre post,
      (format_remote_link parse1 "http://example.com/p" "T").data =
        pre ++ ("target=\"_blank\"").data ++ post) ∧
    (∃ w, format_remote_link parse1 "http://example.com/p" "T" =
      "<a rel=\"noopener noreferrer\" target=\"_blank\" href=\"" ++
        ent_encode w ++ "\">" ++ "T" ++ "</a>") := by
  have h := c7_anchor_attrs parse1 "http://example.com/p" "T"
  exact ⟨h.1, h.2.2 ⟨"http:", "example.com", "/p", "", ""⟩ rfl⟩


/-! ### The JIRA markup fallback parser -/

/-- An entry of the inline parser's `formats` stack. The JS array is
modelled with index 0 at the list head; `push` appends at the end and
`pop` removes the last element, exactly like the JS array methods. -/
inductive Fmt where
  | bold : Fmt
  | italic : Fmt
  | code : Fmt
deriving DecidableEq, Repr

/-- The kind of the currently open list (`ps.ps_list`). -/
inductive LKind where
  | ul : LKind
  | ol : LKind
deriving DecidableEq, Repr

/-- The inline parser's `state` variable. -/
inductive PState where
  | leading : PState
  | text : PState
  | linkTitle : PState
  | linkUser : PState
  | linkAttach : PState
  | linkUrl : PState
deriving DecidableEq, Repr

/-- The mutable locals of one `parse_jira_markup` call, plus the
caller-shared `ps` fields. -/
structure LoopSt where
  text : String
  formats : List Fmt
  pstate : PState
  link_title : String
  link_url : String
  leading_spaces : Nat
  ps_list : Option LKind
  ps_heading : Option Char
deriving DecidableEq, Repr

/-- The caller-visible parser state threaded between lines. -/
structure ParseState where
  ps_list : Option LKind
  ps_heading : Option Char
deriving DecidableEq, Repr

/-- The `repeat_char(c, n)` helper. -/
def repeat_char (c : Char) (n : Nat) : String :=
  String.mk (List.replicate n c)

/-- The `prefmtok(x)` test: a formatting character takes effect only when the
preceding character is absent or not an ASCII letter. -/
def prefmtok (x : Option Char) : Bool :=
  match x with
  | none => true
  | some c =>
      if ('A' ≤ c && c ≤ 'Z') || ('a' ≤ c && c ≤ 'z') then false
      else true

/-- The `commit_text()` helper: flush the pending literal text,
entity-encoded.
After the call the buffer is empty in either case. -/
def commitSt (st : LoopSt) : List String × LoopSt :=
  (if st.text = "" then [] else [ent_encode st.text],
   { st with text := "" })

/-- The list-closing markup `'</li></' + ps.ps_list + '>'`. -/
def listCloseTag : LKind → String
  | .ul => "</li></ul>"
  | .ol => "</li></ol>"

/-- The `h<1-6>.` digits (source: `HEADING_LEVELS`). -/
def HEADING_LEVELS : List Char := ['1', '2', '3', '4', '5', '6']

/-- The heading-opening markup `'<' + ps.ps_heading + '>'` with
`ps_heading = 'h' + cc`. -/
def headingOpen (d : Char) : String := "<h" ++ String.mk [d] ++ ">"

/-- The heading-closing markup `'</' + ps.ps_heading + '>'`. -/
def headingClose (d : Char) : String := "</h" ++ String.mk [d] ++ ">"

/--
The bold/italic/code-span section at the bottom of the character loop
(reached from the `TEXT` case, also after a list close). Returns the
emitted fragments, the successor state, and how many further characters
are consumed beyond the current one.
-/
def fmtStep (st : LoopSt) (c : Char) (cc : Option Char)
    (prev : Option Char) : List String × LoopSt × Nat :=
  if c = '*' && !(st.formats.head? == some Fmt.code) then
    if st.formats.head? == some Fmt.bold then
      ((commitSt st).1 ++ ["</b>"],
       { (commitSt st).2 with formats := st.formats.dropLast }, 0)
    else if prefmtok prev then
      ((commitSt st).1 ++ ["<b>"],
       { (commitSt st).2 with formats := st.formats ++ [Fmt.bold] }, 0)
    else
      ((commitSt st).1, { (commitSt st).2 with text := String.mk [c] }, 0)
  else if c = '_' && !(st.formats.head? == some Fmt.code) then
    if st.formats.head? == some Fmt.italic then
      ((commitSt st).1 ++ ["</i>"],
       { (commitSt st).2 with formats := st.formats.dropLast }, 0)
    else if prefmtok prev then
      ((commitSt st).1 ++ ["<i>"],
       { (commitSt st).2 with formats := st.formats ++ [Fmt.italic] }, 0)
    else
      ((commitSt st).1, { (commitSt st).2 with text := String.mk [c] }, 0)
  else if c = '{' && cc == some '{' then
    ((commitSt st).1 ++ ["<code>"],
     { (commitSt st).2 with formats := st.formats ++ [Fmt.code] }, 1)
  else if c = '\\' && st.formats.head? == some Fmt.code then
    ([], { st with text := st.text ++
      (match cc with
       | some ch => String.mk [ch]
       | none => "undefined") }, 1)
  else if c = '}' && cc == some '}' &&
      st.formats.head? == some Fmt.code then
    ((commitSt st).1 ++ ["</code>"],
     { (commitSt st).2 with formats := st.formats.dropLast }, 1)
  else
    ([], { st with text := st.text.push c }, 0)

/--
The `TEXT` case of the character loop: list closing (which falls
through to the format section), heading detection, link opening, then
the format section.
-/
def stepText (pos : Nat) (prev : Option Char) (c : Char)
    (cc ccc : Option Char) (st : LoopSt) : List String × LoopSt × Nat :=
  if pos == 0 && c != ' ' && st.ps_list.isSome then
    let k := st.ps_list.getD LKind.ul
    let r := fmtStep { (commitSt st).2 with ps_list := none } c cc prev
    ((commitSt st).1 ++ [listCloseTag k] ++ r.1, r.2.1, r.2.2)
  else if pos == 0 && c = 'h' && ccc == some '.' &&
      (match cc with
       | some d => HEADING_LEVELS.contains d
       | none => false) then
    let d := cc.getD '1'
    ((commitSt st).1 ++ [headingOpen d],
     { (commitSt st).2 with ps_heading := some d }, 3)
  else if c = '[' then
    let st₁ := { (commitSt st).2 with link_title := "", link_url := "" }
    match cc with
    | some '~' => ((commitSt st).1, { st₁ with pstate := .linkUser }, 1)
    | some '^' => ((commitSt st).1, { st₁ with pstate := .linkAttach }, 1)
    | _ => ((commitSt st).1, { st₁ with pstate := .linkTitle }, 0)
  else
    fmtStep st c cc prev

/--
The character loop of `parse_jira_markup`. `skip` models `i += n`
jumps (the skipped characters still advance `pos` and `prev`); the
final `commit_text()` lives in the base case.
-/
def run (p : String → Option Url) (st : LoopSt) (skip : Nat) (pos : Nat)
    (prev : Option Char) : List Char → List String × LoopSt
  | [] => commitSt st
  | c :: rest =>
      match skip with
      | sk + 1 => run p st sk (pos + 1) (some c) rest
      | 0 =>
        match st.pstate with
        | .leading =>
            if c = ' ' then
              run p { st with leading_spaces := st.leading_spaces + 1 } 0
                (pos + 1) (some c) rest
            else if (c = '*' || c = '-') && rest.head? == some ' ' then
              let pre := match st.ps_list with
                | some _ => "</li>"
                | none => "<ul>"
              let r := run p { (commitSt st).2 with ps_list := some LKind.ul }
                0 (pos + 1) (some c) rest
              ([pre] ++ (commitSt st).1 ++ ["<li>"] ++ r.1, r.2)
            else if c = '#' && rest.head? == some ' ' then
              let pre := match st.ps_list with
                | some _ => "</li>"
                | none => "<ol>"
              let r := run p { (commitSt st).2 with ps_list := some LKind.ol }
                0 (pos + 1) (some c) rest
              ([pre] ++ (commitSt st).1 ++ ["<li>"] ++ r.1, r.2)
            else
              let s := stepText pos prev c rest.head? (rest.get? 1)
                { st with
                  text := st.text ++ repeat_char ' ' st.leading_spaces
                  pstate := PState.text }
              let r := run p s.2.1 s.2.2 (pos + 1) (some c) rest
              (s.1 ++ r.1, r.2)
        | .text =>
            let s := stepText pos prev c rest.head? (rest.get? 1) st
            let r := run p s.2.1 s.2.2 (pos + 1) (some c) rest
            (s.1 ++ r.1, r.2)
        | .linkTitle =>
            if c = '|' then
              run p { st with pstate := .linkUrl } 0 (pos + 1) (some c)
                rest
            else if c = ']' then
              let r := run p { st with pstate := .text } 0 (pos + 1)
                (some c) rest
              ([format_remote_link p st.link_title
                (ent_encode st.link_title)] ++ r.1, r.2)
            else
              run p { st with link_title := st.link_title.push c } 0
                (pos + 1) (some c) rest
        | .linkUser =>
            if c = ']' then
              let r := run p { st with pstate := .text } 0 (pos + 1)
                (some c) rest
              (["<b>@", ent_encode st.link_title, "</b>"] ++ r.1, r.2)
            else
              run p { st with link_title := st.link_title.push c } 0
                (pos + 1) (some c) rest
        | .linkAttach =>
            if c = ']' then
              let r := run p { st with pstate := .text } 0 (pos + 1)
                (some c) rest
              (["<b>[attachment ", ent_encode st.link_title, "]</b>"] ++
                r.1, r.2)
            else
              run p { st with link_title := st.link_title.push c } 0
                (pos + 1) (some c) rest
        | .linkUrl =>
            if c = ']' then
              let r := run p { st with pstate := .text } 0 (pos + 1)
                (some c) rest
              ([format_remote_link p st.link_url
                (ent_encode st.link_title)] ++ r.1, r.2)
            else
              run p { st with link_url := st.link_url.push c } 0
                (pos + 1) (some c) rest

/-- Concatenation of the `out` fragment list (`out.join('')`). -/
def strCat : List String → String
  | [] => ""
  | s :: t => s ++ strCat t

/-- The fresh loop state at the start of a `parse_jira_markup` call. -/
def initSt (ps : ParseState) : LoopSt :=
  { text := "", formats := [], pstate := .leading, link_title := ""
    link_url := "", leading_spaces := 0, ps_list := ps.ps_list
    ps_heading := none }

/--
`parse_jira_markup(desc, ps)`: run the character loop over the line,
then close a still-open heading. Returns the HTML fragment and the
updated shared parser state.
-/
def parse_jira_markup (p : String → Option Url) (desc : String)
    (ps : ParseState) : String × ParseState :=
  let r := run p (initSt ps) 0 0 none desc.data
  (strCat (r.1 ++
      (match r.2.ps_heading with
       | some d => [headingClose d]
       | none => [])),
   { ps_list := r.2.ps_list, ps_heading := r.2.ps_heading })


/-! ### Helper lemmas about the inline parser -/

/-- Boolean substring test over character lists. -/
def substrB (pat : List Char) : List Char → Bool
  | [] => pat.isEmpty
  | c :: t => pat.isPrefixOf (c :: t) || substrB pat t

theorem ent_encode_ne (s t : String) (h : '<' ∈ t.data) :
    ent_encode s ≠ t := by
  intro he
  have hm : '<' ∈ (ent_encode s).data := by rw [he]; exact h
  exact (mem_encode_fold '<' s.data hm) (Or.inl rfl)

/-- No HTML tag (anything containing a raw left angle bracket) can come
out of `commit_text`, whose output is entity-encoded. -/
theorem mem_commit_no_tag (st : LoopSt) (t : String) (h : '<' ∈ t.data) :
    t ∉ (commitSt st).1 := by
  intro hm
  unfold commitSt at hm
  simp only [] at hm
  split at hm
  · cases hm
  · simp only [List.mem_singleton] at hm
    exact ent_encode_ne st.text t h hm.symm

/-! ### C4 -/

/--
C4 (amended): during `parse_jira_markup`'s single pass, a code span at
the BOTTOM of the open-format stack (index 0, which is what the code's
`formats[0]` tests, even though `push`/`pop` operate on the top)
suppresses the interpretation of `'*'` and `'_'`: past the first
position of the line, the TEXT step turns them into literal text and
leaves the stack untouched. The original claim's "top of the stack" and
"at most one of bold and italic open" both fail (see the
counterexample).
-/
theorem c4_code_bottom_suppression (st : LoopSt) (pos : Nat)
    (prev cc ccc : Option Char) (hpos : 1 ≤ pos)
    (h : st.formats.head? = some Fmt.code) :
    stepText pos prev '*' cc ccc st =
      ([], { st with text := st.text.push '*' }, 0) ∧
    stepText pos prev '_' cc ccc st =
      ([], { st with text := st.text.push '_' }, 0) := by
  have h0 : (pos == 0) = false := by
    cases pos with
    | zero => omega
    | succ n => rfl
  constructor <;>
  · unfold stepText fmtStep
    simp [h0, h]

/--
Counterexample to C4 as stated: after `"*a _b"` both bold and italic are
open simultaneously; and in `"*a {{b*"` the code span is on top of the
stack (`[bold, code]`, top = last) when the final `'*'` arrives, yet
that `'*'` is still interpreted — it emits `</b>` and pops the code
entry.
-/
theorem c4_code_bottom_suppression_counterexample :
    (run parse0 (initSt ⟨none, none⟩) 0 0 none ("*a _b").data).2.formats =
      [Fmt.bold, Fmt.italic] ∧
    (run parse0 (initSt ⟨none, none⟩) 0 0 none
        ("*a \x7b\x7bb").data).2.formats = [Fmt.bold, Fmt.code] ∧
    (run parse0 (initSt ⟨none, none⟩) 0 0 none
        ("*a \x7b\x7bb*").data).1 =
      ["<b>", "a ", "<code>", "b", "</b>"] ∧
    (run parse0 (initSt ⟨none, none⟩) 0 0 none
        ("*a \x7b\x7bb*").data).2.formats = [Fmt.bold] := by
  decide

/-- A TEXT-state loop state with a code span at the bottom of the
stack. -/
def stC : LoopSt :=
  { text := "b", formats := [Fmt.code], pstate := .text, link_title := ""
    link_url := "", leading_spaces := 0, ps_list := none
    ps_heading := none }

/-- Witness for the amended C4 at a concrete state. -/
theorem c4_code_bottom_suppression_witness :
    stepText 5 (some 'a') '*' none none stC =
      ([], { stC with text := stC.text.push '*' }, 0) ∧
    stepText 5 (some 'a') '_' none none stC =
      ([], { stC with text := stC.text.push '_' }, 0) :=
  c4_code_bottom_suppression stC 5 (some 'a') none none (by omega) rfl

/-! ### C5 -/

/--
C5 (amended): `a*b*c` renders literally as `a*b*c` with no bold tag and
`a *b* c` renders as `a <b>b</b> c`; in general `'*'` (bold) and `'_'`
(italic) never OPEN emphasis when the preceding character is an ASCII
letter, and the same symbol closes the formatting whenever that format
sits at index 0 of the open-format stack (the first-opened format) —
not unconditionally, as the counterexample shows.
-/
theorem c5_emphasis (st : LoopSt) (prev cc : Option Char) :
    ((parse_jira_markup parse0 "a*b*c" ⟨none, none⟩).1 = "a*b*c" ∧
      (parse_jira_markup parse0 "a *b* c" ⟨none, none⟩).1 =
        "a <b>b</b> c") ∧
    (prefmtok prev = false →
      "<b>" ∉ (fmtStep st '*' cc prev).1 ∧
      "<i>" ∉ (fmtStep st '_' cc prev).1) ∧
    (st.formats.head? = some Fmt.bold →
      fmtStep st '*' cc prev =
        ((commitSt st).1 ++ ["</b>"],
         { (commitSt st).2 with formats := st.formats.dropLast }, 0)) ∧
    (st.formats.head? = some Fmt.italic →
      fmtStep st '_' cc prev =
        ((commitSt st).1 ++ ["</i>"],
         { (commitSt st).2 with formats := st.formats.dropLast }, 0)) := by
  refine ⟨⟨by decide, by decide⟩, ?_, ?_, ?_⟩
  · intro hp
    constructor
    · intro hmem
      unfold fmtStep at hmem
      by_cases hcode : st.formats.head? = some Fmt.code
      · simp [hcode] at hmem
      · by_cases hbold : st.formats.head? = some Fmt.bold
        · simp [hcode, hbold] at hmem
          exact mem_commit_no_tag st "<b>" (by decide) hmem
        · simp [hcode, hbold, hp] at hmem
          exact mem_commit_no_tag st "<b>" (by decide) hmem
    · intro hmem
      unfold fmtStep at hmem
      by_cases hcode : st.formats.head? = some Fmt.code
      · simp [hcode] at hmem
      · by_cases hital : st.formats.head? = some Fmt.italic
        · simp [hcode, hital] at hmem
          exact mem_commit_no_tag st "<i>" (by decide) hmem
        · simp [hcode, hital, hp] at hmem
          exact mem_commit_no_tag st "<i>" (by decide) hmem
  · intro h
    unfold fmtStep
    simp [h]
  · intro h
    unfold fmtStep
    simp [h]

/--
Counterexample to C5 as stated: in `"_a *b* c"` bold is opened by the
first `'*'` but the second `'*'` (after the letter `b`, with italic at
index 0 of the stack) does not close it — the output contains `<b>` but
no `</b>`, refuting "once open, the same symbol always closes it".
-/
theorem c5_emphasis_counterexample :
    (parse_jira_markup parse0 "_a *b* c" ⟨none, none⟩).1 =
      "<i>a <b>b* c" ∧
    substrB ("<b>").data
      (parse_jira_markup parse0 "_a *b* c" ⟨none, none⟩).1.data = true ∧
    substrB ("</b>").data
      (parse_jira_markup parse0 "_a *b* c" ⟨none, none⟩).1.data =
      false := by
  decide

/-- A TEXT-state loop state with an empty stack and pending text. -/
def stB : LoopSt :=
  { text := "x", formats := [], pstate := .text, link_title := ""
    link_url := "", leading_spaces := 0, ps_list := none
    ps_heading := none }

/-- Witness for the amended C5: the concrete rendering plus a concrete
non-opening after the letter `b`. -/
theorem c5_emphasis_witness :
    (parse_jira_markup parse0 "a*b*c" ⟨none, none⟩).1 = "a*b*c" ∧
    "<b>" ∉ (fmtStep stB '*' none (some 'b')).1 := by
  have h := c5_emphasis stB (some 'b') none
  exact ⟨h.1.1, (h.2.1 rfl).1⟩


/-! ### C8 -/

theorem string_append_assoc (a b c : String) :
    a ++ b ++ c = a ++ (b ++ c) := by
  apply String.ext
  simp [String.data_append, List.append_assoc]

theorem string_append_empty (s : String) : s ++ "" = s := by
  apply String.ext
  simp [String.data_append]

theorem strCat_append (a b : List String) :
    strCat (a ++ b) = strCat a ++ strCat b := by
  induction a with
  | nil =>
      show strCat b = "" ++ strCat b
      apply String.ext
      simp [String.data_append]
  | cons s t ih =>
      show s ++ strCat (t ++ b) = (s ++ strCat t) ++ strCat b
      rw [ih, string_append_assoc]

theorem fmtStep_ps_heading (st : LoopSt) (c : Char)
    (cc prev : Option Char) :
    (fmtStep st c cc prev).2.1.ps_heading = st.ps_heading := by
  unfold fmtStep
  repeat' split
  all_goals rfl

theorem stepText_ps_heading (pos : Nat) (prev : Option Char) (c : Char)
    (cc ccc : Option Char) (st : LoopSt) (hpos : (pos == 0) = false) :
    (stepText pos prev c cc ccc st).2.1.ps_heading = st.ps_heading := by
  unfold stepText
  simp only [hpos, Bool.false_and, Bool.false_eq_true, if_false]
  split
  · split <;> rfl
  · exact fmtStep_ps_heading st c cc prev

theorem run_ps_heading (p : String → Option Url) (l : List Char) :
    ∀ (st : LoopSt) (skip pos : Nat) (prev : Option Char), 1 ≤ pos →
      (run p st skip pos prev l).2.ps_heading = st.ps_heading := by
  induction l with
  | nil => intro st skip pos prev h; rfl
  | cons c rest ih =>
      intro st skip pos prev h
      have h1 : (1 : Nat) ≤ pos + 1 := by omega
      have hpos : (pos == 0) = false := by
        cases pos with
        | zero => omega
        | succ n => rfl
      obtain ⟨tx, fm, pst, lt, lu, ls, pl, ph⟩ := st
      cases skip with
      | succ sk => exact ih _ sk (pos + 1) (some c) h1
      | zero =>
          cases pst
          case leading =>
              simp only [run]
              split
              · exact ih _ 0 (pos + 1) (some c) h1
              · split
                · exact ih _ 0 (pos + 1) (some c) h1
                · split
                  · exact ih _ 0 (pos + 1) (some c) h1
                  · exact (ih _ _ (pos + 1) (some c) h1).trans
                      (stepText_ps_heading pos prev c rest.head?
                        (rest.get? 1) _ hpos)
          case text =>
              simp only [run]
              exact (ih _ _ (pos + 1) (some c) h1).trans
                (stepText_ps_heading pos prev c rest.head?
                  (rest.get? 1) _ hpos)
          case linkTitle =>
              simp only [run]
              split
              · exact ih _ 0 (pos + 1) (some c) h1
              · split
                · exact ih _ 0 (pos + 1) (some c) h1
                · exact ih _ 0 (pos + 1) (some c) h1
          case linkUser =>
              simp only [run]
              split
              · exact ih _ 0 (pos + 1) (some c) h1
              · exact ih _ 0 (pos + 1) (some c) h1
          case linkAttach =>
              simp only [run]
              split
              · exact ih _ 0 (pos + 1) (some c) h1
              · exact ih _ 0 (pos + 1) (some c) h1
          case linkUrl =>
              simp only [run]
              split
              · exact ih _ 0 (pos + 1) (some c) h1
              · exact ih _ 0 (pos + 1) (some c) h1

/-- The first step of the loop on a `h<d>.` line with no open list:
the heading container opens, `ps_heading` is set, and the loop resumes
in TEXT state skipping the next three characters (the digit, the dot,
and the first content character). -/
theorem c8_heading_step (p : String → Option Url) (ph : Option Char)
    (d : Char) (tail : List Char)
    (hcon : HEADING_LEVELS.contains d = true) :
    run p (initSt ⟨none, ph⟩) 0 0 none
        (String.mk ('h' :: d :: '.' :: tail)).data =
      ([headingOpen d] ++
        (run p { initSt ⟨none, ph⟩ with
            pstate := PState.text, ps_heading := some d } 3 1 (some 'h')
          (d :: '.' :: tail)).1,
       (run p { initSt ⟨none, ph⟩ with
            pstate := PState.text, ps_heading := some d } 3 1 (some 'h')
          (d :: '.' :: tail)).2) := by
  conv_lhs => rw [show (String.mk ('h' :: d :: '.' :: tail)).data =
    'h' :: d :: '.' :: tail from rfl]
  rw [show run p (initSt ⟨none, ph⟩) 0 0 none
      ('h' :: d :: '.' :: tail) =
    ((stepText 0 none 'h' (d :: '.' :: tail).head?
        ((d :: '.' :: tail).get? 1) { initSt ⟨none, ph⟩ with
          text := (initSt ⟨none, ph⟩).text ++ repeat_char ' ' 0
          pstate := PState.text }).1 ++
      (run p (stepText 0 none 'h' (d :: '.' :: tail).head?
          ((d :: '.' :: tail).get? 1) { initSt ⟨none, ph⟩ with
            text := (initSt ⟨none, ph⟩).text ++ repeat_char ' ' 0
            pstate := PState.text }).2.1
        (stepText 0 none 'h' (d :: '.' :: tail).head?
          ((d :: '.' :: tail).get? 1) { initSt ⟨none, ph⟩ with
            text := (initSt ⟨none, ph⟩).text ++ repeat_char ' ' 0
            pstate := PState.text }).2.2 1 (some 'h')
        (d :: '.' :: tail)).1,
     (run p (stepText 0 none 'h' (d :: '.' :: tail).head?
          ((d :: '.' :: tail).get? 1) { initSt ⟨none, ph⟩ with
            text := (initSt ⟨none, ph⟩).text ++ repeat_char ' ' 0
            pstate := PState.text }).2.1
        (stepText 0 none 'h' (d :: '.' :: tail).head?
          ((d :: '.' :: tail).get? 1) { initSt ⟨none, ph⟩ with
            text := (initSt ⟨none, ph⟩).text ++ repeat_char ' ' 0
            pstate := PState.text }).2.2 1 (some 'h')
        (d :: '.' :: tail)).2) from rfl]
  have hstep : stepText 0 none 'h' (d :: '.' :: tail).head?
      ((d :: '.' :: tail).get? 1) { initSt ⟨none, ph⟩ with
        text := (initSt ⟨none, ph⟩).text ++ repeat_char ' ' 0
        pstate := PState.text } =
      ([headingOpen d],
       { initSt ⟨none, ph⟩ with
          pstate := PState.text, ps_heading := some d }, 3) := by
    have hmem : d ∈ HEADING_LEVELS := by simpa using hcon
    unfold stepText
    simp [initSt, hmem, commitSt, repeat_char]
  rw [hstep]


/--
C8 (amended): a line whose first three characters are `h`, a digit 1-6,
and `.`, processed while no list is open from a previous line, opens the
heading container of that level, consumes the three marker characters
PLUS the immediately following character (the `i += 3` before the loop's
own `i++` skips four characters in total — normally the space after
the dot, but line content otherwise), renders the rest of the line as
heading content, and auto-closes the heading container at end of line.
-/
theorem c8_heading (p : String → Option Url) (d : Char)
    (tail : List Char) (ps : ParseState) (hd : d ∈ HEADING_LEVELS)
    (hlist : ps.ps_list = none) :
    parse_jira_markup p (String.mk ('h' :: d :: '.' :: tail)) ps =
      (headingOpen d ++
        (strCat (run p { initSt ps with
            pstate := PState.text, ps_heading := some d } 3 1 (some 'h')
          (d :: '.' :: tail)).1 ++ headingClose d),
       ⟨(run p { initSt ps with
            pstate := PState.text, ps_heading := some d } 3 1 (some 'h')
          (d :: '.' :: tail)).2.ps_list, some d⟩) := by
  have hcon : HEADING_LEVELS.contains d = true := by
    fin_cases hd <;> rfl
  obtain ⟨pl, ph⟩ := ps
  have hl : pl = none := hlist
  subst hl
  have hstep := c8_heading_step p ph d tail hcon
  have hph : (run p { initSt (⟨none, ph⟩ : ParseState) with
      pstate := PState.text, ps_heading := some d } 3 1 (some 'h')
      (d :: '.' :: tail)).2.ps_heading = some d :=
    run_ps_heading p (d :: '.' :: tail) _ 3 1 (some 'h') (by omega)
  unfold parse_jira_markup
  rw [hstep]
  simp only [hph, strCat_append]
  rw [Prod.mk.injEq]
  constructor
  · simp [strCat, string_append_empty, string_append_assoc]
  · rfl

/--
Counterexample to C8 as stated: on the line `h1.ab` (no space after the
marker) the character `a` is consumed together with the marker, so the
heading content is `b`, not the full remainder `ab`.
-/
theorem c8_heading_counterexample :
    (parse_jira_markup parse0 "h1.ab" ⟨none, none⟩).1 = "<h1>b</h1>" ∧
    (parse_jira_markup parse0 "h1.ab" ⟨none, none⟩).1 ≠
      "<h1>ab</h1>" := by
  decide

/-- Witness for the amended C8 on the concrete line `h2.xy`. -/
theorem c8_heading_witness :
    parse_jira_markup parse0 (String.mk ('h' :: '2' :: '.' :: "xy".data))
        ⟨none, none⟩ =
      (headingOpen '2' ++
        (strCat (run parse0 { initSt ⟨none, none⟩ with
            pstate := PState.text, ps_heading := some '2' } 3 1 (some 'h')
          ('2' :: '.' :: "xy".data)).1 ++ headingClose '2'),
       ⟨(run parse0 { initSt ⟨none, none⟩ with
            pstate := PState.text, ps_heading := some '2' } 3 1 (some 'h')
          ('2' :: '.' :: "xy".data)).2.ps_list, some '2'⟩) :=
  c8_heading parse0 '2' ("xy").data ⟨none, none⟩ (by decide) rfl

